import Mathlib

/-!
Verification development for the ptc-cortex conversational-agent service.

Each section below is a shallow embedding of one part of the TypeScript
source, written to mirror the source structure as closely as Lean allows:

* `BlogDb` — the read-only SQL guard of `src/lib/blog-db.ts`
  (`executeReadOnlyQuery`).
* `AuthCheck` — the session validator of `src/lib/auth-check.ts`
  (`verifySession`).
* `ChatRoute` — the SSE stream handler of `src/app/api/chat/route.ts`
  (the `POST` handler's event loop and post-loop code).
* `LongMemory` — the long-term-memory search of `src/lib/long-memory.ts`
  (`saveMemory` / `searchMemories`, including the semantics of the SQL
  query it issues: `LIKE` filtering, `ORDER BY`, `LIMIT`).
* `Rag` — the retrieval subsystem of `src/lib/rag.ts` (`tokenize`,
  `bm25Score`, `bm25Search`, `initKnowledgeBase`, `searchKnowledge`) and
  the `search_knowledge_base` tool of `src/lib/tools.ts`.

JavaScript numbers are modelled as real numbers (`ℝ`), JS string length
as UTF-16 length, thrown exceptions as `Except`, and external effects
(file system, embedding model, vector store, Postgres) as explicit
environment records.
-/

namespace PtcCortex

/-! ## Shared string helpers -/

/-- Substring containment on character lists (JS `String.prototype.includes`,
SQL wildcard-free `LIKE '%needle%'`). -/
def containsSeq : List Char → List Char → Bool
  | needle, [] => needle.isEmpty
  | needle, c :: rest => needle.isPrefixOf (c :: rest) || containsSeq needle rest

/-- Test that `needle` occurs as a contiguous substring of `hay`. -/
def strContains (hay needle : String) : Bool :=
  containsSeq needle.toList hay.toList

/-- JS `String.prototype.toLowerCase`, written over the character list so
that it reduces in the kernel (ASCII case mapping, which covers every cased
character the source applies it to). -/
def toLowerStr (s : String) : String := ⟨s.data.map Char.toLower⟩

/-- JS `String.prototype.trim`: strip leading and trailing whitespace. -/
def trimStr (s : String) : String :=
  ⟨((s.data.dropWhile Char.isWhitespace).reverse.dropWhile Char.isWhitespace).reverse⟩

/-- JS `String.prototype.startsWith`. -/
def startsWithStr (s p : String) : Bool := p.data.isPrefixOf s.data

/-- JS `String.prototype.slice(0, n)`. -/
def strTake (s : String) (n : Nat) : String := ⟨s.data.take n⟩

/-! ## BlogDb: the read-only SQL guard (`src/lib/blog-db.ts`, `executeReadOnlyQuery`)

Only the guard logic in front of the database call is embedded: the
function either returns an error string without touching the database, or
forwards a (possibly `LIMIT`-suffixed) statement to the pool. -/

namespace BlogDb

/-- JS regex word character class `\w` = `[A-Za-z0-9_]`. -/
def isWordChar (c : Char) : Bool := c.isAlphanum || c = '_'

/-- Scan helper for the JS regex test `\bkw\b`: tries every position of the
subject, carrying the previous character for the left word boundary. -/
def wordTokenAux (kw : List Char) : List Char → Option Char → Bool
  | [], _ => false
  | c :: rest, prev =>
    (kw.isPrefixOf (c :: rest)
        && (match prev with
            | none => true
            | some p => !isWordChar p)
        && (match (c :: rest).drop kw.length with
            | [] => true
            | d :: _ => !isWordChar d))
      || wordTokenAux kw rest (some c)

/-- Embedding of `new RegExp("\\b" + keyword + "\\b", "i").test s` for an all-lowercase
alphabetic keyword and an already-lowercased subject: the keyword occurs as a
standalone word token. -/
def hasWordToken (kw s : String) : Bool :=
  wordTokenAux kw.toList s.toList none

/-- Outcome of the guard in `executeReadOnlyQuery`: either an error message
returned without executing anything, or the SQL text actually sent to the
database. -/
inductive SqlOutcome where
  | rejected (msg : String)
  | executed (sql : String)
  deriving DecidableEq, Repr

/-- The rejection message of the first guard (non-`select`/`with` statement). -/
def notSelectMsg : String := "错误：只允许执行 SELECT 查询，不允许修改数据。"

/-- The rejection message of the dangerous-keyword loop. -/
def dangerousMsg (kw : String) : String :=
  "错误：SQL 中包含不允许的关键词 \"" ++ kw ++ "\"。"

/-- The dangerous-keyword list of `executeReadOnlyQuery`. -/
def dangerousKeywords : List String :=
  ["insert", "update", "delete", "drop", "alter", "truncate", "create"]

/-- Guard logic of `executeReadOnlyQuery sql` (`src/lib/blog-db.ts`):
trim and lowercase, reject statements not starting with `select`/`with`,
then run the dangerous-keyword loop (whose condition also re-tests the
`select`/`with` start), and otherwise forward the statement, appending
` LIMIT 50` when the lowercased text does not contain `limit`. -/
def executeReadOnlyQuery (sql : String) : SqlOutcome :=
  let trimmed := toLowerStr (trimStr sql)
  if !startsWithStr trimmed "select" && !startsWithStr trimmed "with" then
    .rejected notSelectMsg
  else
    match dangerousKeywords.find? (fun kw =>
        hasWordToken kw trimmed
          && !startsWithStr trimmed "select" && !startsWithStr trimmed "with") with
    | some kw => .rejected (dangerousMsg kw)
    | none => .executed (if strContains trimmed "limit" then sql else sql ++ " LIMIT 50")

end BlogDb

/-! ## AuthCheck: `verifySession` (`src/lib/auth-check.ts`)

The Postgres lookup (`SELECT expires FROM sessions WHERE session_token = $1
LIMIT 1`) is modelled by its outcome: an exception, or at most one row.
Timestamps are integers; `new Date()` is the `now` argument. -/

namespace AuthCheck

/-- The single row `verifySession` reads (`expires` column). -/
structure SessionRow where
  expires : Int
  deriving DecidableEq, Repr

/-- Embedding of `verifySession` (`src/lib/auth-check.ts`): on a query exception the
`catch` returns `true`; with no row it returns `false`; with a row it
returns `expires > now`. -/
def verifySession (queryResult : Except String (Option SessionRow)) (now : Int) : Bool :=
  match queryResult with
  | .error _ => true
  | .ok none => false
  | .ok (some row) => decide (now < row.expires)

end AuthCheck

/-! ## ChatRoute: the SSE stream handler (`src/app/api/chat/route.ts`, `POST`)

The `agent.streamEvents` iteration and the post-loop code of the `POST`
handler are embedded as a fold over the internal LangChain events the loop
reads. An internal event carries exactly the fields the handler inspects:
tool name and input for `on_tool_start`, tool name and output text for
`on_tool_end`, reasoning and content strings for `on_chat_model_stream`
chunks, and the response's tool-call count for `on_chat_model_end`. A run
that raises (the only way the underlying agent loop aborts, e.g. on the
graph library's recursion limit) is modelled by the consumed event prefix
plus an `aborted` flag selecting the `catch` path. -/

namespace ChatRoute

/-- Internal `streamEvents` events as read by the handler. -/
inductive AgentEvent where
  | toolStart (name input : String)
  | toolEnd (name output : String)
  | chatStream (reasoning content : String)
  | chatEnd (toolCalls : Nat)
  deriving DecidableEq, Repr

/-- Outgoing SSE events (the `type` discriminator plus payload). -/
inductive SseEvent where
  | thinking (content : String)
  | thinkingEnd
  | toolStart (name input : String)
  | toolEnd (name result : String)
  | content (content : String)
  | error (content : String)
  | done
  deriving DecidableEq, Repr

/-- Mutable state of the stream loop: emitted events so far, `fullReply`,
`thinkingContent`. -/
structure RouteState where
  out : List SseEvent
  fullReply : String
  thinkingContent : String
  deriving Repr

/-- One iteration of the `for await (const event of eventStream)` body. -/
def stepEvent (st : RouteState) (e : AgentEvent) : RouteState :=
  match e with
  | .toolStart name input =>
    let st :=
      if st.thinkingContent ≠ "" then
        { st with out := st.out ++ [.thinkingEnd], thinkingContent := "" }
      else st
    { st with out := st.out ++ [.toolStart name input] }
  | .toolEnd name output =>
    { st with out := st.out ++ [.toolEnd name (strTake output 800)] }
  | .chatStream reasoning content =>
    let st :=
      if reasoning ≠ "" then
        { st with out := st.out ++ [.thinking reasoning],
                  thinkingContent := st.thinkingContent ++ reasoning }
      else st
    if content ≠ "" then
      { st with out := st.out ++ [.content content],
                fullReply := st.fullReply ++ content }
    else st
  | .chatEnd _ =>
    if st.thinkingContent ≠ "" then
      { st with out := st.out ++ [.thinkingEnd], thinkingContent := "" }
    else st

/-- The whole event loop, from the initial state. -/
def runEvents (events : List AgentEvent) : RouteState :=
  events.foldl stepEvent ⟨[], "", ""⟩

/-- The fallback reply used when no content was generated. -/
def fallbackReply : String := "[AI 未生成回复]"

/-- The message of the `error` SSE event sent by the `catch` block. -/
def streamErrorMsg : String := "生成出错"

/-- Result of one request: the SSE events enqueued, and the assistant
message persisted via `addMessage` (none when the `catch` path ran). -/
structure RouteResult where
  events : List SseEvent
  persisted : Option String
  deriving DecidableEq, Repr

/-- The `start(controller)` body: run the loop over the consumed events;
on abort, append the `error` event and persist nothing; otherwise run the
post-loop code (fallback `content` when `fullReply` is empty, then `done`,
then `addMessage(sessionId, "assistant", fullReply)`). -/
def postStream (events : List AgentEvent) (aborted : Bool) : RouteResult :=
  let st := runEvents events
  if aborted then
    ⟨st.out ++ [.error streamErrorMsg], none⟩
  else if st.fullReply = "" then
    ⟨st.out ++ [.content fallbackReply] ++ [.done], some fallbackReply⟩
  else
    ⟨st.out ++ [.done], some st.fullReply⟩

/-- The non-empty `content` fields of the streamed chunks, in order (the
texts the handler forwards and accumulates into `fullReply`). -/
def contentChunks (events : List AgentEvent) : List String :=
  events.filterMap fun e =>
    match e with
    | .chatStream _ c => if c = "" then none else some c
    | _ => none

/-- The payloads of the `content` SSE events of an output list. -/
def contentsOf (out : List SseEvent) : List String :=
  out.filterMap fun e =>
    match e with
    | .content c => some c
    | _ => none

/-- Claim C1's notion of "accompanying text of a tool-calling response":
the non-empty chunk contents of each model response whose closing
`on_chat_model_end` reports at least one tool call. -/
def nonTerminalAux : List AgentEvent → List String → List String
  | [], _ => []
  | .chatStream _ c :: rest, acc =>
    nonTerminalAux rest (if c = "" then acc else acc ++ [c])
  | .chatEnd n :: rest, acc =>
    (if n = 0 then [] else acc) ++ nonTerminalAux rest []
  | _ :: rest, acc => nonTerminalAux rest acc

/-- Non-empty chunk texts belonging to responses with ≥ 1 tool call. -/
def nonTerminalChunkTexts (events : List AgentEvent) : List String :=
  nonTerminalAux events []

/-- String concatenation of a list, as `fullReply` accumulates it. -/
def concatAll : List String → String
  | [] => ""
  | s :: rest => s ++ concatAll rest

end ChatRoute

/-! ## Tokenization helpers shared by `long-memory.ts` and `rag.ts`

Both modules split text with the same regex replacement
`[，。！？、；：""''（）【】\s\n\r] → " "` followed by `split(/\s+/)` and a
length filter. JS string length counts UTF-16 code units, modelled by
`utf16Len`. Splitting on every separator instead of separator runs differs
only by empty pieces, which the length-≥-2 filter removes either way. -/

/-- The punctuation / whitespace character class of the tokenizers'
replacement regex (the `\s` class is modelled by `Char.isWhitespace`). -/
def isPunctChar (c : Char) : Bool :=
  c = '，' || c = '。' || c = '！' || c = '？' || c = '、' || c = '；' ||
  c = '：' || c = '“' || c = '”' || c = '‘' || c = '’' ||
  c = '（' || c = '）' || c = '【' || c = '】' || c.isWhitespace

/-- Split a character list at every separator character. -/
def splitRuns (sep : Char → Bool) : List Char → List Char → List (List Char)
  | [], acc => [acc.reverse]
  | c :: rest, acc =>
    if sep c then acc.reverse :: splitRuns sep rest []
    else splitRuns sep rest (c :: acc)

/-- JS `String.prototype.length`: the number of UTF-16 code units. -/
def utf16Len (s : String) : Nat :=
  (s.data.map fun c => c.utf16Size.toNat).sum

/-- Raw pieces of `text.replace(punct, " ").split(/\s+/)`. -/
def splitPieces (text : String) : List String :=
  (splitRuns (fun c => c = ' ')
      (text.data.map fun c => if isPunctChar c then ' ' else c) []).map
    fun cs => ⟨cs⟩

/-! ## LongMemory: long-term memory search (`src/lib/long-memory.ts`)

`searchMemories` issues one SQL query; its semantics over the
`chat_long_memories` table are embedded directly: `LIKE '%token%'`
filtering over `content` and `keywords` (with Postgres `LIKE` wildcard
semantics for `%`, `_` and the `\` escape), `ORDER BY` the importance
`CASE` rank then `created_at DESC`, and `LIMIT`. -/

namespace LongMemory

/-- A row of `chat_long_memories` (columns the module reads and writes). -/
structure Memory where
  session_id : String
  content : String
  keywords : String
  importance : String
  created_at : Int
  deriving DecidableEq, Repr

/-- Embedding of `saveMemory` (`src/lib/long-memory.ts`): a single `INSERT` appending one
row; `created_at` defaults to the insertion time `now`. -/
def saveMemory (tbl : List Memory) (sessionId content keywords importance : String)
    (now : Int) : List Memory :=
  tbl ++ [⟨sessionId, content, keywords, importance, now⟩]

/-- Query tokenization of `searchMemories`: punctuation replaced by spaces,
split on whitespace, keep pieces of length ≥ 2 (UTF-16 units). -/
def memTokenize (query : String) : List String :=
  (splitPieces query).filter fun w => 2 ≤ utf16Len w

/-- Postgres `LIKE` pattern matching: `%` matches any character sequence
(tried against every suffix), `_` any single character, `\` escapes the
next pattern character; a pattern ending in a bare escape matches nothing.
Structured as recursion on the pattern so that it reduces in the kernel. -/
def likeMatch : List Char → List Char → Bool
  | [], s => s.isEmpty
  | '%' :: ps, s => s.tails.any fun t => likeMatch ps t
  | '_' :: ps, s =>
    match s with
    | [] => false
    | _ :: s' => likeMatch ps s'
  | '\\' :: [], _ => false
  | '\\' :: p :: ps, s =>
    match s with
    | [] => false
    | c :: s' => p = c && likeMatch ps s'
  | p :: ps, s =>
    match s with
    | [] => false
    | c :: s' => p = c && likeMatch ps s'

/-- Test of `field LIKE '%' || tok || '%'`. -/
def likeContains (field tok : String) : Bool :=
  likeMatch ('%' :: (tok.data ++ ['%'])) field.data

/-- The `WHERE` clause: some token matches `content` or `keywords`. -/
def memMatches (tokens : List String) (r : Memory) : Bool :=
  tokens.any fun t => likeContains r.content t || likeContains r.keywords t

/-- The `ORDER BY` key: `CASE importance WHEN 'high' THEN 0 WHEN 'normal'
THEN 1 ELSE 2 END`. -/
def importanceRank (imp : String) : Nat :=
  if imp = "high" then 0 else if imp = "normal" then 1 else 2

/-- The `ORDER BY` relation: importance rank ascending, then `created_at`
descending. -/
def memOrder (a b : Memory) : Prop :=
  importanceRank a.importance < importanceRank b.importance ∨
    (importanceRank a.importance = importanceRank b.importance ∧
      b.created_at ≤ a.created_at)

instance : DecidableRel memOrder := fun a b => by
  unfold memOrder; infer_instance

/-- The default `limit` argument of `searchMemories`. -/
def defaultLimit : Nat := 5

/-- Embedding of `searchMemories` (`src/lib/long-memory.ts`): tokenize the query, return
`[]` when no token survives, otherwise run the `SELECT` — filter rows by
the `LIKE` disjunction, order by importance rank then recency, keep at most
`lim` rows. -/
def searchMemories (query : String) (lim : Nat) (tbl : List Memory) : List Memory :=
  let tokens := memTokenize query
  if tokens.isEmpty then []
  else (List.insertionSort memOrder (tbl.filter (memMatches tokens))).take lim

end LongMemory

/-! ## Rag: the retrieval subsystem (`src/lib/rag.ts`)

JS numbers are modelled as `ℝ` (`Math.log` is the natural logarithm
`Real.log`). External effects are an environment record: the outcome of
`loadAndSplitDocuments` (file system + splitter), of the embedding-index
build (`MemoryVectorStore.fromDocuments`), of `similaritySearch`, and the
decimal rendering `Number.prototype.toFixed(2)` (floating-point decimal
output, not shallowly embeddable, hence a parameter). Module-global mutable
state (`vectorStore`, `bm25Chunks`, `isInitialized`, `isInitializing`,
`useVectorSearch`) is passed explicitly. -/

namespace Rag

/-- A LangChain `Document`: `pageContent` plus its `metadata.source`. -/
structure Document where
  pageContent : String
  source : String
  deriving DecidableEq, Repr

/-- A BM25 index entry (`interface BM25Chunk`). -/
structure BM25Chunk where
  content : String
  source : String
  tokens : List String
  deriving DecidableEq, Repr

/-- The stopword set of `tokenize`. -/
def stopWords : List String :=
  ["的", "了", "在", "是", "我", "有", "和", "就",
   "不", "人", "都", "一", "一个", "上", "也", "很",
   "到", "说", "要", "去", "你", "会", "着", "没有",
   "看", "好", "自己", "这"]

/-- Embedding of `tokenize` (`src/lib/rag.ts`): punctuation replaced by spaces, split on
whitespace, keep pieces of length ≥ 2 that are not stopwords, lowercase. -/
def tokenize (text : String) : List String :=
  (((splitPieces text).filter fun w =>
      2 ≤ utf16Len w && !stopWords.contains w).map toLowerStr)

/-- Term-frequency map built by the `for (const token of docTokens)` loop
(`Map.set(token, (Map.get(token) || 0) + 1)`), as a counting function. -/
def termFreqMap (docTokens : List String) : String → Nat :=
  docTokens.foldl (fun m token => fun t => if t = token then m t + 1 else m t)
    fun _ => 0

/-- Embedding of `bm25Score` (`src/lib/rag.ts`): k1 = 1.5, b = 0.75; loop over query
tokens skipping those with zero term frequency, accumulating
`idf * tfNorm` with `idf = ln((N - df + 0.5)/(df + 0.5) + 1)` and
`tfNorm = tf*(k1+1) / (tf + k1*(1 - b + b*docLen/avgDocLen))`. -/
noncomputable def bm25Score (queryTokens docTokens : List String) (avgDocLen : ℝ)
    (totalDocs : Nat) (docFrequency : String → Nat) : ℝ :=
  let k1 : ℝ := 1.5
  let b : ℝ := 0.75
  let docLen : ℝ := docTokens.length
  let termFreq := termFreqMap docTokens
  queryTokens.foldl
    (fun score queryToken =>
      let tf := termFreq queryToken
      if tf = 0 then score
      else
        let df := docFrequency queryToken
        let idf := Real.log (((totalDocs : ℝ) - (df : ℝ) + 0.5) / ((df : ℝ) + 0.5) + 1)
        let tfNorm := ((tf : ℝ) * (k1 + 1)) / ((tf : ℝ) + k1 * (1 - b + b * (docLen / avgDocLen)))
        score + idf * tfNorm)
    0

/-- The document-frequency map built in `bm25Search`: for every chunk, each
distinct token of the chunk is counted once. -/
def docFrequencyMap (chunks : List BM25Chunk) : String → Nat :=
  chunks.foldl
    (fun m chunk =>
      chunk.tokens.dedup.foldl
        (fun m token => fun t => if t = token then m t + 1 else m t) m)
    fun _ => 0

/-- Embedding of `Array.prototype.join(sep)`. -/
def joinSep (sep : String) : List String → String
  | [] => ""
  | [x] => x
  | x :: rest => x ++ sep ++ joinSep sep rest

/-- One formatted BM25 hit (`fmt` renders `score.toFixed(2)`). -/
def bm25Format (fmt : ℝ → String) (r : BM25Chunk × ℝ) : String :=
  "【来源: " ++ r.1.source ++ " | 方式: BM25 | 分数: " ++ fmt r.2 ++ "】\n" ++ r.1.content

/-- One formatted vector-search hit. -/
def vectorFormat (d : Document) : String :=
  "【来源: " ++ d.source ++ " | 方式: 向量检索】\n" ++ d.pageContent

/-- Embedding of `bm25Search` (`src/lib/rag.ts`): empty string on an empty index, else
score every chunk, sort descending by score, keep the top `topK` with a
positive score, and render them; empty string when nothing scores > 0. -/
noncomputable def bm25Search (fmt : ℝ → String) (chunks : List BM25Chunk)
    (query : String) (topK : Nat) : String :=
  if chunks.isEmpty then ""
  else
    let queryTokens := tokenize query
    let docFrequency := docFrequencyMap chunks
    let avgDocLen : ℝ := ((chunks.map fun c => (c.tokens.length : ℝ)).sum) / (chunks.length : ℝ)
    let scored := chunks.map fun c =>
      (c, bm25Score queryTokens c.tokens avgDocLen chunks.length docFrequency)
    let sorted := List.insertionSort (fun a b : BM25Chunk × ℝ => b.2 ≤ a.2) scored
    let topResults := (sorted.take topK).filter fun r => 0 < r.2
    if topResults.isEmpty then ""
    else joinSep "\n\n---\n\n" (topResults.map (bm25Format fmt))

/-- External collaborators of the retrieval subsystem. -/
structure RagEnv where
  load : Except String (List Document)
  vectorBuild : Except String Unit
  vectorQuery : String → Nat → Except String (List Document)
  toFixed2 : ℝ → String

/-- The module-global mutable state of `rag.ts`; `vectorStore` records
whether the global holds a built store (non-null). -/
structure RagState where
  isInitialized : Bool
  isInitializing : Bool
  bm25Chunks : List BM25Chunk
  vectorStore : Bool
  useVectorSearch : Bool

/-- The state at module load: nothing initialized, `useVectorSearch = true`. -/
def initialRagState : RagState :=
  { isInitialized := false, isInitializing := false, bm25Chunks := [],
    vectorStore := false, useVectorSearch := true }

/-- Embedding of `initKnowledgeBase` (`src/lib/rag.ts`). Already initialized: return at
once. Build in flight: poll `isInitializing` until the in-flight build
finishes, touching nothing (sequentially: return with the state unchanged).
Otherwise set `isInitializing`, load and split documents (a load exception
propagates, the `finally` clearing `isInitializing`), build the BM25 index,
then attempt the vector index, catching its failure by setting
`useVectorSearch := false`; finally mark `isInitialized`. -/
def initKnowledgeBase (env : RagEnv) (s : RagState) : RagState × Except String Unit :=
  if s.isInitialized then (s, .ok ())
  else if s.isInitializing then (s, .ok ())
  else
    match env.load with
    | .error e => ({ s with isInitializing := false }, .error e)
    | .ok docs =>
      if docs.isEmpty then
        ({ s with isInitialized := true, isInitializing := false }, .ok ())
      else
        let chunks := docs.map fun d => BM25Chunk.mk d.pageContent d.source (tokenize d.pageContent)
        match env.vectorBuild with
        | .ok _ =>
          ({ s with bm25Chunks := chunks, vectorStore := true, useVectorSearch := true,
                    isInitialized := true, isInitializing := false }, .ok ())
        | .error _ =>
          ({ s with bm25Chunks := chunks, useVectorSearch := false,
                    isInitialized := true, isInitializing := false }, .ok ())

/-- Embedding of `vectorSearch` (`src/lib/rag.ts`): empty string when the store is null
or the search returns nothing, else the formatted hits; a similarity-search
exception propagates to the caller. -/
def vectorSearch (env : RagEnv) (s : RagState) (query : String) (topK : Nat) :
    Except String String :=
  if !s.vectorStore then .ok ""
  else
    match env.vectorQuery query topK with
    | .error e => .error e
    | .ok results =>
      if results.isEmpty then .ok ""
      else .ok (joinSep "\n\n---\n\n" (results.map vectorFormat))

/-- Reply when the knowledge directory produced no chunks. -/
def emptyKbMsg : String := "知识库为空，请在 knowledge/ 目录下添加 .txt 文件。"

/-- The "nothing found" sentinel. -/
def notFoundMsg : String := "知识库中没有找到与问题相关的信息。"

/-- The `fallback` tail of `searchKnowledge`: the BM25 result when
non-empty, else the sentinel. -/
noncomputable def bm25Fallback (env : RagEnv) (s : RagState) (query : String)
    (topK : Nat) : String :=
  let r := bm25Search env.toFixed2 s.bm25Chunks query topK
  if r ≠ "" then r else notFoundMsg

/-- Embedding of `searchKnowledge` (`src/lib/rag.ts`): initialize (propagating an
initialization exception), report an empty knowledge base, otherwise try
the vector tier when `useVectorSearch && vectorStore` — returning its
result when non-empty and catching its exceptions — then fall back to BM25,
and to the sentinel when that is empty too. -/
noncomputable def searchKnowledge (env : RagEnv) (s : RagState) (query : String)
    (topK : Nat) : RagState × Except String String :=
  match initKnowledgeBase env s with
  | (s', .error e) => (s', .error e)
  | (s', .ok _) =>
    if s'.bm25Chunks.isEmpty then (s', .ok emptyKbMsg)
    else
      let fallback :=
        let r := bm25Search env.toFixed2 s'.bm25Chunks query topK
        if r ≠ "" then r else notFoundMsg
      if s'.useVectorSearch && s'.vectorStore then
        match vectorSearch env s' query topK with
        | .ok v => if v ≠ "" then (s', .ok v) else (s', .ok fallback)
        | .error _ => (s', .ok fallback)
      else (s', .ok fallback)

/-- The `search_knowledge_base` tool of `src/lib/tools.ts`: its `execute`
is `searchKnowledge(query, 3)` with no surrounding try/catch. -/
noncomputable def knowledgeBaseToolExecute (env : RagEnv) (s : RagState)
    (query : String) : RagState × Except String String :=
  searchKnowledge env s query 3

end Rag

/-! ## Spec-side BM25 formula (claim C6)

The closed-form score stated by the spec, written directly from its words
for comparison with the source-derived `Rag.bm25Score`:
sum over query tokens of `idf(token) * (tf*(k1+1)) / (tf + k1*(1-b+b*docLen/avgDocLen))`
with `k1 = 1.5`, `b = 0.75`, `idf = ln((N - df + 0.5)/(df + 0.5) + 1)`,
`tf` = the token's count in the document. -/

noncomputable def bm25SpecScore (queryTokens docTokens : List String) (avgDocLen : ℝ)
    (totalDocs : Nat) (docFrequency : String → Nat) : ℝ :=
  (queryTokens.map fun t =>
    let tf : ℝ := docTokens.count t
    let df : ℝ := docFrequency t
    Real.log (((totalDocs : ℝ) - df + 0.5) / (df + 0.5) + 1) *
      (tf * (1.5 + 1)) / (tf + 1.5 * (1 - 0.75 + 0.75 * ((docTokens.length : ℝ) / avgDocLen)))).sum

/-! # Theorems -/

/-! ## Auxiliary string facts -/

theorem string_length_eq_zero_iff (s : String) : s.length = 0 ↔ s = "" := by
  constructor
  · intro h
    cases s with
    | mk data =>
      cases data with
      | nil => rfl
      | cons c cs => simp [String.length] at h
  · intro h; subst h; rfl

theorem string_append_empty_iff (s t : String) : s ++ t = "" ↔ s = "" ∧ t = "" := by
  constructor
  · intro h
    have hlen : (s ++ t).length = 0 := by rw [h]; rfl
    rw [String.length_append] at hlen
    exact ⟨(string_length_eq_zero_iff s).1 (by omega),
           (string_length_eq_zero_iff t).1 (by omega)⟩
  · rintro ⟨rfl, rfl⟩; rfl

/-! ## ChatRoute stream invariants -/

namespace ChatRoute

theorem contentsOf_append (a b : List SseEvent) :
    contentsOf (a ++ b) = contentsOf a ++ contentsOf b :=
  List.filterMap_append a b _

theorem contentChunks_cons (e : AgentEvent) (rest : List AgentEvent) :
    contentChunks (e :: rest) = contentChunks [e] ++ contentChunks rest := by
  cases e with
  | chatStream r c =>
    by_cases hc : c = "" <;> simp [contentChunks, List.filterMap_cons, hc]
  | toolStart a b => simp [contentChunks, List.filterMap_cons]
  | toolEnd a b => simp [contentChunks, List.filterMap_cons]
  | chatEnd n => simp [contentChunks, List.filterMap_cons]

theorem concatAll_append (l1 l2 : List String) :
    concatAll (l1 ++ l2) = concatAll l1 ++ concatAll l2 := by
  induction l1 with
  | nil => rfl
  | cons s rest ih =>
    simp only [List.cons_append, concatAll, List.append_eq, ih, String.append_assoc]

/-- The per-event effect on the output list: each step appends fresh events
whose `content` payloads are exactly the event's non-empty chunk content,
and never a `done`. -/
theorem step_out (st : RouteState) (e : AgentEvent) :
    ∃ extra, (stepEvent st e).out = st.out ++ extra ∧
      contentsOf extra = contentChunks [e] ∧
      SseEvent.done ∉ extra ∧
      (stepEvent st e).fullReply = st.fullReply ++ concatAll (contentChunks [e]) := by
  cases e with
  | toolStart name input =>
    by_cases h : st.thinkingContent = ""
    · exact ⟨[.toolStart name input],
        by simp [stepEvent, h, contentsOf, contentChunks, concatAll]⟩
    · exact ⟨[.thinkingEnd, .toolStart name input],
        by simp [stepEvent, h, contentsOf, contentChunks, concatAll]⟩
  | toolEnd name output =>
    exact ⟨[.toolEnd name (strTake output 800)],
      by simp [stepEvent, contentsOf, contentChunks, concatAll]⟩
  | chatStream reasoning content =>
    by_cases hr : reasoning = "" <;> by_cases hc : content = ""
    · exact ⟨[], by simp [stepEvent, hr, hc, contentsOf, contentChunks, concatAll]⟩
    · exact ⟨[.content content],
        by simp [stepEvent, hr, hc, contentsOf, contentChunks, concatAll]⟩
    · exact ⟨[.thinking reasoning],
        by simp [stepEvent, hr, hc, contentsOf, contentChunks, concatAll]⟩
    · exact ⟨[.thinking reasoning, .content content],
        by simp [stepEvent, hr, hc, contentsOf, contentChunks, concatAll]⟩
  | chatEnd n =>
    by_cases h : st.thinkingContent = ""
    · exact ⟨[], by simp [stepEvent, h, contentsOf, contentChunks, concatAll]⟩
    · exact ⟨[.thinkingEnd], by simp [stepEvent, h, contentsOf, contentChunks, concatAll]⟩

/-- Fold form of `step_out` over a whole event list. -/
theorem foldl_out (events : List AgentEvent) (st : RouteState) :
    ∃ extra, (events.foldl stepEvent st).out = st.out ++ extra ∧
      contentsOf extra = contentChunks events ∧
      SseEvent.done ∉ extra ∧
      (events.foldl stepEvent st).fullReply = st.fullReply ++ concatAll (contentChunks events) := by
  induction events generalizing st with
  | nil => exact ⟨[], by simp [contentChunks, contentsOf, concatAll]⟩
  | cons e rest ih =>
    obtain ⟨x1, hout1, hc1, hd1, hf1⟩ := step_out st e
    obtain ⟨x2, hout2, hc2, hd2, hf2⟩ := ih (stepEvent st e)
    refine ⟨x1 ++ x2, ?_, ?_, ?_, ?_⟩
    · rw [List.foldl_cons, hout2, hout1, List.append_assoc]
    · rw [contentsOf_append, hc1, hc2]
      exact (contentChunks_cons e rest).symm
    · intro hmem
      rcases List.mem_append.1 hmem with h | h
      · exact hd1 h
      · exact hd2 h
    · rw [List.foldl_cons, hf2, hf1, String.append_assoc, ← concatAll_append,
        ← contentChunks_cons]

theorem runEvents_contents (events : List AgentEvent) :
    contentsOf (runEvents events).out = contentChunks events := by
  obtain ⟨x, hout, hc, _, _⟩ := foldl_out events ⟨[], "", ""⟩
  rw [runEvents, hout, contentsOf_append, hc]; rfl

theorem runEvents_done_not_mem (events : List AgentEvent) :
    SseEvent.done ∉ (runEvents events).out := by
  obtain ⟨x, hout, _, hd, _⟩ := foldl_out events ⟨[], "", ""⟩
  rw [runEvents, hout]
  intro hmem
  rcases List.mem_append.1 hmem with h | h
  · exact absurd h (List.not_mem_nil _)
  · exact hd h

theorem runEvents_fullReply (events : List AgentEvent) :
    (runEvents events).fullReply = concatAll (contentChunks events) := by
  obtain ⟨x, _, _, _, hf⟩ := foldl_out events ⟨[], "", ""⟩
  rw [runEvents, hf]; rfl

theorem contentChunks_ne_empty (events : List AgentEvent) :
    ∀ s ∈ contentChunks events, s ≠ "" := by
  intro s hs
  induction events with
  | nil => simp [contentChunks] at hs
  | cons e rest ih =>
    rw [contentChunks_cons, List.mem_append] at hs
    rcases hs with h | h
    · cases e with
      | chatStream r c =>
        by_cases hc : c = "" <;> simp [contentChunks, hc] at h
        subst h; exact hc
      | toolStart a b => simp [contentChunks] at h
      | toolEnd a b => simp [contentChunks] at h
      | chatEnd n => simp [contentChunks] at h
    · exact ih h

theorem concatAll_eq_empty_iff (l : List String) (h : ∀ s ∈ l, s ≠ "") :
    concatAll l = "" ↔ l = [] := by
  cases l with
  | nil => simp [concatAll]
  | cons s rest =>
    simp only [concatAll]
    constructor
    · intro habs
      exact absurd ((string_append_empty_iff s (concatAll rest)).1 habs).1
        (h s (List.mem_cons_self s rest))
    · intro habs; exact absurd habs (List.cons_ne_nil s rest)

theorem runEvents_fullReply_empty_iff (events : List AgentEvent) :
    (runEvents events).fullReply = "" ↔ contentChunks events = [] := by
  rw [runEvents_fullReply]
  exact concatAll_eq_empty_iff _ (contentChunks_ne_empty events)

end ChatRoute

/-! ## Claim C1 -/

/-- C1, counterexample: in the SSE route, a model response that carries one
tool call (`chatEnd 1`) and whose stream chunks carried the text
"Let me check." does get that text emitted as a `content` event — the
handler forwards every non-empty chunk content at once, before it can know
whether the response is terminal. -/
theorem c1_counterexample :
    "Let me check." ∈ ChatRoute.nonTerminalChunkTexts
        [ChatRoute.AgentEvent.chatStream "" "Let me check.",
         ChatRoute.AgentEvent.chatEnd 1,
         ChatRoute.AgentEvent.toolStart "get_weather" "city: 北京",
         ChatRoute.AgentEvent.toolEnd "get_weather" "晴",
         ChatRoute.AgentEvent.chatStream "" "北京今天晴。",
         ChatRoute.AgentEvent.chatEnd 0] ∧
    ChatRoute.SseEvent.content "Let me check." ∈
      (ChatRoute.postStream
        [ChatRoute.AgentEvent.chatStream "" "Let me check.",
         ChatRoute.AgentEvent.chatEnd 1,
         ChatRoute.AgentEvent.toolStart "get_weather" "city: 北京",
         ChatRoute.AgentEvent.toolEnd "get_weather" "晴",
         ChatRoute.AgentEvent.chatStream "" "北京今天晴。",
         ChatRoute.AgentEvent.chatEnd 0] false).events := by
  decide

/-- C1, amended: on a non-aborted run the `content` events of the SSE
stream are exactly the non-empty content deltas of the model stream, in
order and regardless of tool calls — with the single fallback `content`
event when no delta carried any text. -/
theorem c1_content_events_are_chunk_texts (events : List ChatRoute.AgentEvent) :
    ChatRoute.contentsOf (ChatRoute.postStream events false).events =
      (if ChatRoute.contentChunks events = [] then [ChatRoute.fallbackReply]
       else ChatRoute.contentChunks events) := by
  by_cases h : (ChatRoute.runEvents events).fullReply = ""
  · have hch := (ChatRoute.runEvents_fullReply_empty_iff events).1 h
    have hev : (ChatRoute.postStream events false).events
        = (ChatRoute.runEvents events).out
            ++ [ChatRoute.SseEvent.content ChatRoute.fallbackReply]
            ++ [ChatRoute.SseEvent.done] := by
      simp [ChatRoute.postStream, h]
    rw [hev, ChatRoute.contentsOf_append, ChatRoute.contentsOf_append,
      ChatRoute.runEvents_contents, hch]
    simp [ChatRoute.contentsOf]
  · have hch := fun hc => h ((ChatRoute.runEvents_fullReply_empty_iff events).2 hc)
    have hev : (ChatRoute.postStream events false).events
        = (ChatRoute.runEvents events).out ++ [ChatRoute.SseEvent.done] := by
      simp [ChatRoute.postStream, h]
    rw [hev, ChatRoute.contentsOf_append, ChatRoute.runEvents_contents, if_neg hch]
    simp [ChatRoute.contentsOf]

/-- C1, witness: a single terminal turn's delta text comes through as the
one `content` event. -/
theorem c1_content_events_are_chunk_texts_witness :
    ChatRoute.contentsOf
        (ChatRoute.postStream
          [ChatRoute.AgentEvent.chatStream "" "你好", ChatRoute.AgentEvent.chatEnd 0]
          false).events
      = ["你好"] := by
  rw [c1_content_events_are_chunk_texts]
  decide

/-! ## Claim C4 -/

/-- C4, counterexample: when the agent iteration aborts by raising (the
only mechanism that can stop a runaway tool loop here is the graph
library's recursion limit, surfaced as an exception), the caller receives
an `error` event, no `done` event, no `content` event at all — no
synthesized "unable to complete" answer — and nothing is persisted. -/
theorem c4_counterexample :
    ChatRoute.SseEvent.error ChatRoute.streamErrorMsg ∈
      (ChatRoute.postStream
        [ChatRoute.AgentEvent.chatEnd 1,
         ChatRoute.AgentEvent.toolStart "loop_tool" "again",
         ChatRoute.AgentEvent.toolEnd "loop_tool" "again",
         ChatRoute.AgentEvent.chatEnd 1,
         ChatRoute.AgentEvent.toolStart "loop_tool" "again"] true).events ∧
    ChatRoute.SseEvent.done ∉
      (ChatRoute.postStream
        [ChatRoute.AgentEvent.chatEnd 1,
         ChatRoute.AgentEvent.toolStart "loop_tool" "again",
         ChatRoute.AgentEvent.toolEnd "loop_tool" "again",
         ChatRoute.AgentEvent.chatEnd 1,
         ChatRoute.AgentEvent.toolStart "loop_tool" "again"] true).events ∧
    ChatRoute.contentsOf
      (ChatRoute.postStream
        [ChatRoute.AgentEvent.chatEnd 1,
         ChatRoute.AgentEvent.toolStart "loop_tool" "again",
         ChatRoute.AgentEvent.toolEnd "loop_tool" "again",
         ChatRoute.AgentEvent.chatEnd 1,
         ChatRoute.AgentEvent.toolStart "loop_tool" "again"] true).events = [] ∧
    (ChatRoute.postStream
        [ChatRoute.AgentEvent.chatEnd 1,
         ChatRoute.AgentEvent.toolStart "loop_tool" "again",
         ChatRoute.AgentEvent.toolEnd "loop_tool" "again",
         ChatRoute.AgentEvent.chatEnd 1,
         ChatRoute.AgentEvent.toolStart "loop_tool" "again"] true).persisted = none := by
  decide

/-- C4, amended: the repository implements no tool-cycle cap of its own and
synthesizes no terminal answer; whenever the underlying agent stream aborts
by raising, the route appends a single `error` event, emits no `done`
event, and persists nothing. -/
theorem c4_abort_yields_error_not_done (events : List ChatRoute.AgentEvent) :
    (ChatRoute.postStream events true).events
        = (ChatRoute.runEvents events).out
            ++ [ChatRoute.SseEvent.error ChatRoute.streamErrorMsg] ∧
    ChatRoute.SseEvent.done ∉ (ChatRoute.postStream events true).events ∧
    (ChatRoute.postStream events true).persisted = none := by
  refine ⟨rfl, ?_, rfl⟩
  intro hmem
  rw [show (ChatRoute.postStream events true).events
        = (ChatRoute.runEvents events).out
            ++ [ChatRoute.SseEvent.error ChatRoute.streamErrorMsg] from rfl] at hmem
  rcases List.mem_append.1 hmem with h | h
  · exact ChatRoute.runEvents_done_not_mem events h
  · simp at h

/-- C4, witness: the aborted empty run is applied at a concrete input. -/
theorem c4_abort_yields_error_not_done_witness :
    ChatRoute.SseEvent.done ∉ (ChatRoute.postStream [] true).events ∧
    (ChatRoute.postStream [] true).persisted = none :=
  ⟨(c4_abort_yields_error_not_done []).2.1, (c4_abort_yields_error_not_done []).2.2⟩

/-! ## Claim C10 -/

/-- C10 (confirmed): on every non-aborted run the persisted assistant
message is non-empty; when no content chunk arrived, the fallback
"[AI 未生成回复]" is both emitted as a `content` event and persisted; a
`done` event is emitted in both cases. -/
theorem c10_persisted_reply_nonempty (events : List ChatRoute.AgentEvent) :
    (∃ s, (ChatRoute.postStream events false).persisted = some s ∧ s ≠ "") ∧
    ChatRoute.SseEvent.done ∈ (ChatRoute.postStream events false).events ∧
    (ChatRoute.contentChunks events = [] →
      (ChatRoute.postStream events false).persisted = some ChatRoute.fallbackReply ∧
      ChatRoute.SseEvent.content ChatRoute.fallbackReply ∈
        (ChatRoute.postStream events false).events) := by
  by_cases h : (ChatRoute.runEvents events).fullReply = ""
  · refine ⟨⟨ChatRoute.fallbackReply, by simp [ChatRoute.postStream, h], by decide⟩, ?_, ?_⟩
    · simp [ChatRoute.postStream, h]
    · intro _
      exact ⟨by simp [ChatRoute.postStream, h], by simp [ChatRoute.postStream, h]⟩
  · refine ⟨⟨(ChatRoute.runEvents events).fullReply, by simp [ChatRoute.postStream, h], h⟩, ?_, ?_⟩
    · simp [ChatRoute.postStream, h]
    · intro hch
      exact absurd ((ChatRoute.runEvents_fullReply_empty_iff events).2 hch) h

/-- C10, witness: the empty stream persists the fallback reply and still
ends with `done`. -/
theorem c10_persisted_reply_nonempty_witness :
    (ChatRoute.postStream [] false).persisted = some ChatRoute.fallbackReply ∧
    ChatRoute.SseEvent.done ∈ (ChatRoute.postStream [] false).events :=
  ⟨((c10_persisted_reply_nonempty []).2.2 rfl).1, (c10_persisted_reply_nonempty []).2.1⟩

/-! ## Claim C2 -/

/-- C2 (code_bug): the dangerous-keyword guard of `executeReadOnlyQuery` is
dead code — its condition repeats the negated `select`/`with` test that the
first guard already established false, so `select 1; drop table users`
reaches the database even though `drop` occurs as a standalone token; the
first guard itself does reject non-`select`/`with` statements. -/
theorem c2_dangerous_keyword_guard_dead :
    BlogDb.executeReadOnlyQuery "select 1; drop table users"
        = BlogDb.SqlOutcome.executed "select 1; drop table users LIMIT 50" ∧
    BlogDb.hasWordToken "drop" (toLowerStr (trimStr "select 1; drop table users")) = true ∧
    BlogDb.executeReadOnlyQuery "update users set name = 'x'"
        = BlogDb.SqlOutcome.rejected BlogDb.notSelectMsg := by
  decide

/-! ## Claim C8 -/

/-- C8 (confirmed): `verifySession` is fail-open — a query exception yields
`true`, and `false` is returned exactly when the query succeeded and found
either no row or a row whose `expires` is not in the future. -/
theorem c8_verifySession_fail_open (qr : Except String (Option AuthCheck.SessionRow))
    (now : Int) :
    ((∃ e, qr = Except.error e) → AuthCheck.verifySession qr now = true) ∧
    (AuthCheck.verifySession qr now = false ↔
      qr = Except.ok none ∨ ∃ row, qr = Except.ok (some row) ∧ row.expires ≤ now) := by
  constructor
  · rintro ⟨e, rfl⟩; rfl
  · constructor
    · intro h
      match qr with
      | .error e => simp [AuthCheck.verifySession] at h
      | .ok none => exact Or.inl rfl
      | .ok (some row) =>
        refine Or.inr ⟨row, rfl, ?_⟩
        simp only [AuthCheck.verifySession, decide_eq_false_iff_not, not_lt] at h
        exact h
    · rintro (rfl | ⟨row, rfl, h⟩)
      · rfl
      · simp only [AuthCheck.verifySession, decide_eq_false_iff_not, not_lt]
        exact h

/-- C8, witness: a database exception is treated as a valid session. -/
theorem c8_verifySession_fail_open_witness :
    AuthCheck.verifySession (Except.error "connection refused") 0 = true :=
  (c8_verifySession_fail_open (Except.error "connection refused") 0).1
    ⟨"connection refused", rfl⟩

/-! ## Claim C7 -/

namespace LongMemory

instance : IsTotal Memory memOrder := by
  constructor
  intro a b
  unfold memOrder
  rcases Nat.lt_trichotomy (importanceRank a.importance) (importanceRank b.importance)
    with h | h | h
  · exact Or.inl (Or.inl h)
  · rcases Int.le_total b.created_at a.created_at with hc | hc
    · exact Or.inl (Or.inr ⟨h, hc⟩)
    · exact Or.inr (Or.inr ⟨h.symm, hc⟩)
  · exact Or.inr (Or.inl h)

instance : IsTrans Memory memOrder := by
  constructor
  intro a b c hab hbc
  unfold memOrder at *
  rcases hab with h1 | ⟨h1, h1'⟩ <;> rcases hbc with h2 | ⟨h2, h2'⟩
  · exact Or.inl (h1.trans h2)
  · exact Or.inl (h2 ▸ h1)
  · exact Or.inl (h1 ▸ h2)
  · exact Or.inr ⟨h1.trans h2, h2'.trans h1'⟩

end LongMemory

/-- C7, counterexample: Postgres `LIKE` treats `_` as a single-character
wildcard, so a record whose content contains no query token as a substring
is still returned: query "a_cd" (tokens `["a_cd"]`) retrieves the record
with content "axcd" although "a_cd" is a substring of neither its content
nor its (empty) keywords. -/
theorem c7_counterexample :
    LongMemory.searchMemories "a_cd" 5
        [LongMemory.Memory.mk "s" "axcd" "" "normal" 0]
      = [LongMemory.Memory.mk "s" "axcd" "" "normal" 0] ∧
    LongMemory.memTokenize "a_cd" = ["a_cd"] ∧
    strContains "axcd" "a_cd" = false ∧
    strContains "" "a_cd" = false := by
  decide

/-- C7, amended: `searchMemories` returns at most `lim` records, each drawn
from the table and matching — by SQL `LIKE` semantics, which coincide with
substring containment for tokens free of `%`, `_` and `\` — at least one
query token of UTF-16 length ≥ 2 in content or keywords; results are
ordered importance `high` before `normal` before other, then creation time
descending; and every matching record is returned when the table fits
within the limit (hence the `"猫,宠物"`/`"宠物"` round-trip of the witness
below). -/
theorem c7_searchMemories_spec (query : String) (lim : Nat)
    (tbl : List LongMemory.Memory) :
    (LongMemory.searchMemories query lim tbl).length ≤ lim ∧
    (∀ r ∈ LongMemory.searchMemories query lim tbl,
        r ∈ tbl ∧ LongMemory.memMatches (LongMemory.memTokenize query) r = true) ∧
    List.Sorted LongMemory.memOrder (LongMemory.searchMemories query lim tbl) ∧
    (tbl.length ≤ lim → ∀ r ∈ tbl,
        LongMemory.memMatches (LongMemory.memTokenize query) r = true →
        r ∈ LongMemory.searchMemories query lim tbl) := by
  by_cases ht : (LongMemory.memTokenize query).isEmpty
  · have hres : LongMemory.searchMemories query lim tbl = [] := by
      simp [LongMemory.searchMemories, ht]
    have htok : LongMemory.memTokenize query = [] := List.isEmpty_iff.1 ht
    refine ⟨by simp [hres], by simp [hres], by simp [hres], ?_⟩
    intro _ r _ hm
    rw [htok] at hm
    simp [LongMemory.memMatches] at hm
  · have hres : LongMemory.searchMemories query lim tbl
        = (List.insertionSort LongMemory.memOrder
            (tbl.filter (LongMemory.memMatches (LongMemory.memTokenize query)))).take lim := by
      simp [LongMemory.searchMemories, ht]
    refine ⟨?_, ?_, ?_, ?_⟩
    · rw [hres]; exact List.length_take_le _ _
    · intro r hr
      rw [hres] at hr
      have hr' := List.mem_of_mem_take hr
      have hmem := (List.perm_insertionSort LongMemory.memOrder _).mem_iff.1 hr'
      exact ⟨(List.mem_filter.1 hmem).1, (List.mem_filter.1 hmem).2⟩
    · rw [hres]
      exact List.Pairwise.sublist (List.take_sublist _ _)
        (List.sorted_insertionSort LongMemory.memOrder _)
    · intro hlen r hr hm
      rw [hres]
      have hfil : r ∈ tbl.filter (LongMemory.memMatches (LongMemory.memTokenize query)) :=
        List.mem_filter.2 ⟨hr, hm⟩
      have hsortmem : r ∈ List.insertionSort LongMemory.memOrder
          (tbl.filter (LongMemory.memMatches (LongMemory.memTokenize query))) :=
        (List.perm_insertionSort LongMemory.memOrder _).mem_iff.2 hfil
      have hlen' : (List.insertionSort LongMemory.memOrder
          (tbl.filter (LongMemory.memMatches (LongMemory.memTokenize query)))).length ≤ lim := by
        rw [(List.perm_insertionSort LongMemory.memOrder _).length_eq]
        exact le_trans (List.length_filter_le _ _) hlen
      rw [List.take_of_length_le hlen']
      exact hsortmem

/-! ## Claim C6 -/

/-- The `Map.set(t, get(t)+1)` bump loop counts occurrences. -/
theorem count_foldl_bump (l : List String) (m : String → Nat) (t : String) :
    l.foldl (fun m token => fun x => if x = token then m x + 1 else m x) m t
      = m t + l.count t := by
  induction l generalizing m with
  | nil => simp
  | cons a l ih =>
    rw [List.foldl_cons, ih, List.count_cons]
    by_cases h : t = a
    · subst h; simp; omega
    · have hba : (a == t) = false := by simp [Ne.symm h]
      simp [h, hba]

theorem termFreqMap_eq_count (docTokens : List String) (t : String) :
    Rag.termFreqMap docTokens t = docTokens.count t := by
  rw [Rag.termFreqMap, count_foldl_bump, Nat.zero_add]

/-- The nested fold of `docFrequencyMap` counts the chunks containing the
token. -/
theorem docFrequency_foldl (chunks : List Rag.BM25Chunk) (m : String → Nat) (t : String) :
    chunks.foldl
        (fun m chunk =>
          chunk.tokens.dedup.foldl
            (fun m token => fun t => if t = token then m t + 1 else m t) m)
        m t
      = m t + chunks.countP (fun c => decide (t ∈ c.tokens)) := by
  induction chunks generalizing m with
  | nil => simp
  | cons c l ih =>
    rw [List.foldl_cons, ih, count_foldl_bump, List.countP_cons]
    have hded : c.tokens.dedup.count t = if decide (t ∈ c.tokens) = true then 1 else 0 := by
      by_cases h : t ∈ c.tokens
      · simp only [h, decide_eq_true_eq, if_true, eq_self_iff_true]
        exact List.count_eq_one_of_mem (List.nodup_dedup c.tokens) (List.mem_dedup.2 h)
      · simp only [decide_eq_true_eq, h, if_false, iff_false]
        exact List.count_eq_zero_of_not_mem (fun habs => h (List.mem_dedup.1 habs))
    rw [hded]
    omega

theorem docFrequencyMap_eq_countP (chunks : List Rag.BM25Chunk) (t : String) :
    Rag.docFrequencyMap chunks t = chunks.countP fun c => decide (t ∈ c.tokens) := by
  rw [Rag.docFrequencyMap, docFrequency_foldl, Nat.zero_add]

/-- The score loop, with accumulator, equals the spec's closed sum. -/
theorem bm25_foldl_eq (docTokens : List String) (avgDocLen : ℝ) (totalDocs : Nat)
    (docFrequency : String → Nat) (queryTokens : List String) (acc : ℝ) :
    queryTokens.foldl
        (fun score queryToken =>
          if Rag.termFreqMap docTokens queryToken = 0 then score
          else
            score +
              Real.log (((totalDocs : ℝ) - (docFrequency queryToken : ℝ) + 0.5) /
                  ((docFrequency queryToken : ℝ) + 0.5) + 1) *
                (((Rag.termFreqMap docTokens queryToken : ℝ) * (1.5 + 1)) /
                  ((Rag.termFreqMap docTokens queryToken : ℝ) +
                    1.5 * (1 - 0.75 + 0.75 * (((docTokens.length : ℕ) : ℝ) / avgDocLen)))))
        acc
      = acc + bm25SpecScore queryTokens docTokens avgDocLen totalDocs docFrequency := by
  induction queryTokens generalizing acc with
  | nil => simp [bm25SpecScore]
  | cons t rest ih =>
    rw [List.foldl_cons, ih]
    simp only [bm25SpecScore, List.map_cons, List.sum_cons]
    by_cases h : Rag.termFreqMap docTokens t = 0
    · have hc : docTokens.count t = 0 := by rw [← termFreqMap_eq_count]; exact h
      rw [if_pos h, hc]
      ring
    · rw [if_neg h, termFreqMap_eq_count docTokens t]
      ring

/-- C6 (confirmed): `bm25Score` computes exactly the spec's sum over query
tokens of `idf * (tf*(k1+1)) / (tf + k1*(1-b+b*docLen/avgDocLen))` with
k1 = 1.5, b = 0.75, `idf = ln((N - df + 0.5)/(df + 0.5) + 1)`, `tf` the
token's count in the document (zero-`tf` tokens contributing 0); moreover
the term-frequency map is occurrence count and the document-frequency map
built in `bm25Search` counts the chunks containing the token. -/
theorem c6_bm25Score_formula (queryTokens docTokens : List String) (avgDocLen : ℝ)
    (totalDocs : Nat) (docFrequency : String → Nat) (chunks : List Rag.BM25Chunk) :
    Rag.bm25Score queryTokens docTokens avgDocLen totalDocs docFrequency
        = bm25SpecScore queryTokens docTokens avgDocLen totalDocs docFrequency ∧
    (∀ t, Rag.termFreqMap docTokens t = docTokens.count t) ∧
    (∀ t, Rag.docFrequencyMap chunks t = chunks.countP fun c => decide (t ∈ c.tokens)) := by
  refine ⟨?_, termFreqMap_eq_count docTokens, docFrequencyMap_eq_countP chunks⟩
  rw [show Rag.bm25Score queryTokens docTokens avgDocLen totalDocs docFrequency
      = queryTokens.foldl
          (fun score queryToken =>
            if Rag.termFreqMap docTokens queryToken = 0 then score
            else
              score +
                Real.log (((totalDocs : ℝ) - (docFrequency queryToken : ℝ) + 0.5) /
                    ((docFrequency queryToken : ℝ) + 0.5) + 1) *
                  (((Rag.termFreqMap docTokens queryToken : ℝ) * (1.5 + 1)) /
                    ((Rag.termFreqMap docTokens queryToken : ℝ) +
                      1.5 * (1 - 0.75 + 0.75 * (((docTokens.length : ℕ) : ℝ) / avgDocLen)))))
          0 from rfl,
    bm25_foldl_eq, zero_add]

/-! ## Rag result taxonomy (shared by claims C3, C5, C9) -/

namespace Rag

theorem vectorFormat_ne_empty (d : Document) : vectorFormat d ≠ "" := by
  intro h
  rw [vectorFormat] at h
  have h1 := ((string_append_empty_iff _ _).1 h).1
  have h2 := ((string_append_empty_iff _ _).1 h1).1
  have h3 := ((string_append_empty_iff _ _).1 h2).1
  exact absurd h3 (by decide)

theorem joinSep_cons_ne_empty (sep x : String) (rest : List String) (hx : x ≠ "") :
    joinSep sep (x :: rest) ≠ "" := by
  cases rest with
  | nil => simpa [joinSep] using hx
  | cons y ys =>
    intro h
    simp only [joinSep] at h
    exact hx (((string_append_empty_iff _ _).1 ((string_append_empty_iff _ _).1 h).1).1)

theorem bm25Fallback_ne_empty (env : RagEnv) (s : RagState) (query : String)
    (topK : Nat) : bm25Fallback env s query topK ≠ "" := by
  unfold bm25Fallback
  by_cases h : bm25Search env.toFixed2 s.bm25Chunks query topK ≠ ""
  · rw [if_pos h]; exact h
  · rw [if_neg h]; decide

/-- Every path through `initKnowledgeBase` other than a document-loading
exception on a fresh build succeeds. -/
theorem initKnowledgeBase_cases (env : RagEnv) (s : RagState) :
    (∃ s', initKnowledgeBase env s = (s', Except.ok ())) ∨
    (∃ e, env.load = Except.error e ∧ s.isInitialized = false ∧ s.isInitializing = false ∧
      initKnowledgeBase env s = ({ s with isInitializing := false }, Except.error e)) := by
  by_cases h1 : s.isInitialized
  · exact Or.inl ⟨s, by simp [initKnowledgeBase, h1]⟩
  · by_cases h2 : s.isInitializing
    · exact Or.inl ⟨s, by simp [initKnowledgeBase, h1, h2]⟩
    · cases hload : env.load with
      | error e =>
        exact Or.inr ⟨e, rfl, by simp [h1], by simp [h2],
          by simp [initKnowledgeBase, h1, h2, hload]⟩
      | ok docs =>
        by_cases hd : docs.isEmpty
        · exact Or.inl ⟨{ s with isInitialized := true, isInitializing := false },
            by simp [initKnowledgeBase, h1, h2, hload, hd]⟩
        · cases hb : env.vectorBuild with
          | ok u =>
            exact Or.inl ⟨{ s with
                bm25Chunks := docs.map fun d =>
                  BM25Chunk.mk d.pageContent d.source (tokenize d.pageContent),
                vectorStore := true, useVectorSearch := true,
                isInitialized := true, isInitializing := false },
              by simp [initKnowledgeBase, h1, h2, hload, hd, hb]⟩
          | error e =>
            exact Or.inl ⟨{ s with
                bm25Chunks := docs.map fun d =>
                  BM25Chunk.mk d.pageContent d.source (tokenize d.pageContent),
                useVectorSearch := false,
                isInitialized := true, isInitializing := false },
              by simp [initKnowledgeBase, h1, h2, hload, hd, hb]⟩

/-- The value `searchKnowledge` returns once initialization succeeded. -/
theorem searchKnowledge_result (env : RagEnv) (s s' : RagState) (query : String)
    (topK : Nat) (hinit : initKnowledgeBase env s = (s', Except.ok ())) :
    searchKnowledge env s query topK = (s',
      if s'.bm25Chunks.isEmpty then Except.ok emptyKbMsg
      else if s'.useVectorSearch && s'.vectorStore then
        match env.vectorQuery query topK with
        | Except.error _ => Except.ok (bm25Fallback env s' query topK)
        | Except.ok docs =>
          if docs.isEmpty then Except.ok (bm25Fallback env s' query topK)
          else Except.ok (joinSep "\n\n---\n\n" (docs.map vectorFormat))
      else Except.ok (bm25Fallback env s' query topK)) := by
  by_cases hkb : s'.bm25Chunks.isEmpty
  · simp [searchKnowledge, hinit, hkb]
  · by_cases hvec : (s'.useVectorSearch && s'.vectorStore) = true
    · have hstore : s'.vectorStore = true := by
        revert hvec; cases s'.vectorStore <;> simp
      cases hq : env.vectorQuery query topK with
      | error e =>
        have hvs : vectorSearch env s' query topK = Except.error e := by
          simp [vectorSearch, hstore, hq]
        simp [searchKnowledge, hinit, hkb, hvec, hvs, bm25Fallback]
      | ok docs =>
        cases docs with
        | nil =>
          have hvs : vectorSearch env s' query topK = Except.ok "" := by
            simp [vectorSearch, hstore, hq]
          simp [searchKnowledge, hinit, hkb, hvec, hvs, bm25Fallback]
        | cons d ds =>
          have hvs : vectorSearch env s' query topK
              = Except.ok (joinSep "\n\n---\n\n" ((d :: ds).map vectorFormat)) := by
            simp [vectorSearch, hstore, hq]
          have hne : joinSep "\n\n---\n\n" (vectorFormat d :: ds.map vectorFormat) ≠ "" :=
            joinSep_cons_ne_empty _ _ _ (vectorFormat_ne_empty d)
          simp [searchKnowledge, hinit, hkb, hvec, hvs, hne]
    · simp [searchKnowledge, hinit, hkb, hvec, bm25Fallback]

/-- Once initialization succeeds, `searchKnowledge` neither throws nor
returns the empty string. -/
theorem searchKnowledge_ok_ne (env : RagEnv) (s s' : RagState) (query : String)
    (topK : Nat) (hinit : initKnowledgeBase env s = (s', Except.ok ())) :
    (searchKnowledge env s query topK).2.isOk = true ∧
    (searchKnowledge env s query topK).2 ≠ Except.ok "" := by
  rw [searchKnowledge_result env s s' query topK hinit]
  by_cases hkb : s'.bm25Chunks.isEmpty
  · simp [hkb, emptyKbMsg, Except.isOk, Except.toBool]
  · by_cases hvec : (s'.useVectorSearch && s'.vectorStore) = true
    · cases hq : env.vectorQuery query topK with
      | error e =>
        simp [hkb, hvec, hq, bm25Fallback_ne_empty env s' query topK, Except.isOk, Except.toBool]
      | ok docs =>
        cases docs with
        | nil =>
          simp [hkb, hvec, hq, bm25Fallback_ne_empty env s' query topK, Except.isOk, Except.toBool]
        | cons d ds =>
          have hne : joinSep "\n\n---\n\n" (vectorFormat d :: ds.map vectorFormat) ≠ "" :=
            joinSep_cons_ne_empty _ _ _ (vectorFormat_ne_empty d)
          simp [hkb, hvec, hq, hne, Except.isOk, Except.toBool]
    · simp [hkb, hvec, bm25Fallback_ne_empty env s' query topK, Except.isOk, Except.toBool]

end Rag

/-! ## Claim C9 -/

/-- C9 (confirmed): once `isInitialized` is set, `initKnowledgeBase`
returns at once with the state — in particular `bm25Chunks`, `vectorStore`
and `useVectorSearch` — untouched and no document reload; and a caller
arriving while a build is in flight (`isInitializing`) starts no second
build, returning with the state untouched once the in-flight build's flag
clears (the polling wait, sequentially embedded). -/
theorem c9_initKnowledgeBase_idempotent (env : Rag.RagEnv) (s : Rag.RagState) :
    (s.isInitialized = true → Rag.initKnowledgeBase env s = (s, Except.ok ())) ∧
    (s.isInitializing = true → Rag.initKnowledgeBase env s = (s, Except.ok ())) := by
  constructor
  · intro h; simp [Rag.initKnowledgeBase, h]
  · intro h
    by_cases h1 : s.isInitialized
    · simp [Rag.initKnowledgeBase, h1]
    · simp [Rag.initKnowledgeBase, h1, h]

/-- C9, witness: a concrete initialized state is returned unchanged even
though the environment would reload different documents. -/
theorem c9_initKnowledgeBase_idempotent_witness :
    Rag.initKnowledgeBase
        (Rag.RagEnv.mk (Except.ok [Rag.Document.mk "新文档" "b.txt"]) (Except.ok ())
          (fun _ _ => Except.ok []) (fun _ => "0.00"))
        (Rag.RagState.mk true false [Rag.BM25Chunk.mk "报销制度" "a.txt" ["报销制度"]] true true)
      = (Rag.RagState.mk true false [Rag.BM25Chunk.mk "报销制度" "a.txt" ["报销制度"]] true true,
         Except.ok ()) :=
  (c9_initKnowledgeBase_idempotent
      (Rag.RagEnv.mk (Except.ok [Rag.Document.mk "新文档" "b.txt"]) (Except.ok ())
        (fun _ _ => Except.ok []) (fun _ => "0.00"))
      (Rag.RagState.mk true false [Rag.BM25Chunk.mk "报销制度" "a.txt" ["报销制度"]] true true)).1
    rfl

/-! ## Claim C5 -/

/-- C5 (confirmed): with the knowledge base initialized, `searchKnowledge`
never throws and never returns the empty string; the vector tier is
consulted first exactly when `useVectorSearch && vectorStore`, its
non-empty result is returned as-is, and an unavailable tier, a vector
exception or an empty vector result all fall back to the BM25 result or —
when that is empty — the fixed non-empty sentinel; an empty knowledge base
yields its own fixed message. -/
theorem c5_searchKnowledge_policy (env : Rag.RagEnv) (s : Rag.RagState)
    (query : String) (topK : Nat) (h : s.isInitialized = true) :
    ((Rag.searchKnowledge env s query topK).2.isOk = true ∧
      (Rag.searchKnowledge env s query topK).2 ≠ Except.ok "") ∧
    (s.bm25Chunks.isEmpty = true →
      (Rag.searchKnowledge env s query topK).2 = Except.ok Rag.emptyKbMsg) ∧
    (s.bm25Chunks.isEmpty = false →
      (s.useVectorSearch && s.vectorStore) = true →
      ∀ d ds, env.vectorQuery query topK = Except.ok (d :: ds) →
        (Rag.searchKnowledge env s query topK).2
          = Except.ok (Rag.joinSep "\n\n---\n\n" ((d :: ds).map Rag.vectorFormat))) ∧
    (s.bm25Chunks.isEmpty = false →
      ((s.useVectorSearch && s.vectorStore) = false ∨
        (∃ e, env.vectorQuery query topK = Except.error e) ∨
        env.vectorQuery query topK = Except.ok [] →
      (Rag.searchKnowledge env s query topK).2
        = Except.ok (Rag.bm25Fallback env s query topK))) := by
  have hinit : Rag.initKnowledgeBase env s = (s, Except.ok ()) := by
    simp [Rag.initKnowledgeBase, h]
  refine ⟨Rag.searchKnowledge_ok_ne env s s query topK hinit, ?_, ?_, ?_⟩
  · intro hkb
    rw [Rag.searchKnowledge_result env s s query topK hinit]
    simp [hkb]
  · intro hkb hvec d ds hq
    rw [Rag.searchKnowledge_result env s s query topK hinit]
    simp [hkb, hvec, hq]
  · intro hkb hcase
    rw [Rag.searchKnowledge_result env s s query topK hinit]
    rcases hcase with hvec | ⟨e, hq⟩ | hq
    · simp [hkb, hvec]
    · by_cases hvec : (s.useVectorSearch && s.vectorStore) = true
      · simp [hkb, hvec, hq]
      · simp [hkb, hvec]
    · by_cases hvec : (s.useVectorSearch && s.vectorStore) = true
      · simp [hkb, hvec, hq]
      · simp [hkb, hvec]

/-- C5, witness: an initialized but empty knowledge base yields the fixed
non-empty message, and the call does not throw. -/
theorem c5_searchKnowledge_policy_witness :
    (Rag.searchKnowledge
        (Rag.RagEnv.mk (Except.ok []) (Except.ok ()) (fun _ _ => Except.ok [])
          (fun _ => "0.00"))
        (Rag.RagState.mk true false [] false false) "年假" 3).2
      = Except.ok Rag.emptyKbMsg ∧
    (Rag.searchKnowledge
        (Rag.RagEnv.mk (Except.ok []) (Except.ok ()) (fun _ _ => Except.ok [])
          (fun _ => "0.00"))
        (Rag.RagState.mk true false [] false false) "年假" 3).2.isOk = true :=
  ⟨((c5_searchKnowledge_policy
        (Rag.RagEnv.mk (Except.ok []) (Except.ok ()) (fun _ _ => Except.ok [])
          (fun _ => "0.00"))
        (Rag.RagState.mk true false [] false false) "年假" 3 rfl).2.1 rfl),
   ((c5_searchKnowledge_policy
        (Rag.RagEnv.mk (Except.ok []) (Except.ok ()) (fun _ _ => Except.ok [])
          (fun _ => "0.00"))
        (Rag.RagState.mk true false [] false false) "年假" 3 rfl).1.1)⟩

/-! ## Claim C3 -/

/-- C3, counterexample: `search_knowledge_base`'s `execute` propagates the
exception thrown while `initKnowledgeBase` loads documents — it does not
return a descriptive text result. -/
theorem c3_counterexample :
    Rag.knowledgeBaseToolExecute
        (Rag.RagEnv.mk (Except.error "ENOENT: no such file or directory")
          (Except.ok ()) (fun _ _ => Except.ok []) (fun _ => "0.00"))
        Rag.initialRagState "报销流程"
      = (Rag.initialRagState, Except.error "ENOENT: no such file or directory") := by
  simp [Rag.knowledgeBaseToolExecute, Rag.searchKnowledge, Rag.initKnowledgeBase,
    Rag.initialRagState]

/-- C3, amended: `search_knowledge_base` is total except on one path — an
exception raised while loading/splitting documents during a fresh
initialization propagates out of `execute`; in every other situation
(already initialized, build in flight, or loading succeeds) `execute`
returns a text result, and that text is never empty. -/
theorem c3_knowledge_tool_total_unless_load_throws (env : Rag.RagEnv)
    (s : Rag.RagState) (query : String) :
    (s.isInitialized = false → s.isInitializing = false →
      ∀ e, env.load = Except.error e →
        Rag.knowledgeBaseToolExecute env s query
          = ({ s with isInitializing := false }, Except.error e)) ∧
    (s.isInitialized = true ∨ s.isInitializing = true ∨
        (∃ docs, env.load = Except.ok docs) →
      (Rag.knowledgeBaseToolExecute env s query).2.isOk = true ∧
      (Rag.knowledgeBaseToolExecute env s query).2 ≠ Except.ok "") := by
  constructor
  · intro h1 h2 e hload
    have hinit : Rag.initKnowledgeBase env s
        = ({ s with isInitializing := false }, Except.error e) := by
      simp [Rag.initKnowledgeBase, h1, h2, hload]
    simp [Rag.knowledgeBaseToolExecute, Rag.searchKnowledge, hinit]
  · intro hcase
    rcases Rag.initKnowledgeBase_cases env s with ⟨s', hinit⟩ | ⟨e, hload, h1, h2, _⟩
    · exact Rag.searchKnowledge_ok_ne env s s' query 3 hinit
    · rcases hcase with h | h | ⟨docs, hdocs⟩
      · rw [h] at h1; cases h1
      · rw [h] at h2; cases h2
      · rw [hdocs] at hload; cases hload

/-- C3, witness: with an initialized state the tool returns non-empty text
and does not throw. -/
theorem c3_knowledge_tool_total_unless_load_throws_witness :
    (Rag.knowledgeBaseToolExecute
        (Rag.RagEnv.mk (Except.ok []) (Except.ok ()) (fun _ _ => Except.ok [])
          (fun _ => "0.00"))
        (Rag.RagState.mk true false [] false false) "年假").2.isOk = true :=
  ((c3_knowledge_tool_total_unless_load_throws
      (Rag.RagEnv.mk (Except.ok []) (Except.ok ()) (fun _ _ => Except.ok [])
        (fun _ => "0.00"))
      (Rag.RagState.mk true false [] false false) "年假").2 (Or.inl rfl)).1

/-- C7, witness: the spec's round-trip — a memory saved with keywords
`"猫,宠物"` is retrieved by the query `"宠物"`. -/
theorem c7_searchMemories_spec_witness :
    LongMemory.Memory.mk "sess" "用户养了一只叫咪咪的猫" "猫,宠物" "high" 42 ∈
      LongMemory.searchMemories "宠物" 5
        (LongMemory.saveMemory [] "sess" "用户养了一只叫咪咪的猫" "猫,宠物" "high" 42) :=
  (c7_searchMemories_spec "宠物" 5
      (LongMemory.saveMemory [] "sess" "用户养了一只叫咪咪的猫" "猫,宠物" "high" 42)).2.2.2
    (by decide) _ (by decide) (by decide)

end PtcCortex
